import Mathlib

/-!
Shallow embedding of the BrandPriceScraper discovery and extraction pipeline
(src/search_engine.py and src/product_finder.py), with theorems checking the
natural-language specification against it.

Network calls are modelled by oracles passed explicitly:
  head   : String → Option Nat    -- HEAD request; some code = response status,
                                  -- none = network error (caught in the source)
  google : String → List String   -- the _google_search result list for a query
  fetch  : String → Option Soup   -- GET + BeautifulSoup parse; none = non-200
                                  -- status or a caught request exception
HTML documents are modelled by the projections the source reads from them
(structure Soup / Element below).  Prices are rationals: Python floats enter
only through parsing short decimal literals, and no claim depends on rounding.
String primitives are re-implemented on character lists by structural
recursion so that every definition evaluates inside the kernel.
-/

namespace BrandScraper

/-- ASCII lower-casing, modelling Python str.lower on the ASCII data used here. -/
def toLowerStr (s : String) : String := String.mk (s.toList.map Char.toLower)

/-- ASCII upper-casing, modelling Python str.upper on the ASCII data used here. -/
def toUpperStr (s : String) : String := String.mk (s.toList.map Char.toUpper)

/-- leadSeg n h: the list n is a leading segment of the list h. -/
def leadSeg : List Char → List Char → Bool
  | [], _ => true
  | _ :: _, [] => false
  | a :: as, b :: bs => a == b && leadSeg as bs

/-- subSeg n h: the list n occurs contiguously inside the list h. -/
def subSeg (needle : List Char) : List Char → Bool
  | [] => needle.isEmpty
  | b :: bs => leadSeg needle (b :: bs) || subSeg needle bs

/-- Python substring test: needle in hay. -/
def isSubstr (needle hay : String) : Bool := subSeg needle.toList hay.toList

/-- s starts with p (on characters). -/
def startsWithStr (s p : String) : Bool := leadSeg p.toList s.toList

/-- Drop the first n characters of s. -/
def dropStr (s : String) (n : Nat) : String := String.mk (s.toList.drop n)

/-- Take the first n characters of s (Python slice s[:n]). -/
def takeStr (s : String) (n : Nat) : String := String.mk (s.toList.take n)

/-- One fuel-indexed step list for replaceFuel; fuel is always at least the
length of the list, so the fuel never runs out. -/
def replaceFuel (old new : List Char) : Nat → List Char → List Char
  | _, [] => []
  | 0, l => l
  | Nat.succ fuel, c :: rest =>
    if !old.isEmpty && leadSeg old (c :: rest) then
      new ++ replaceFuel old new fuel (rest.drop (old.length - 1))
    else c :: replaceFuel old new fuel rest

/-- Python str.replace: replace every non-overlapping occurrence, left to right. -/
def replaceStr (s old new : String) : String :=
  String.mk (replaceFuel old.toList new.toList s.toList.length s.toList)

/-- Python str.rstrip with a slash argument. -/
def rstripSlash (s : String) : String :=
  String.mk ((s.toList.reverse.dropWhile (fun c => c == '/')).reverse)

/-- Keep the first occurrence of each string, in order (models list(set(..))
up to the unspecified iteration order of a Python set). -/
def dedupAux : List String → List String → List String
  | [], _ => []
  | x :: xs, seen =>
    if seen.any (fun y => y == x) then dedupAux xs seen
    else x :: dedupAux xs (x :: seen)

def dedupUrls (l : List String) : List String := dedupAux l []

/-- Host part of a URL: characters up to the first slash, question mark or hash. -/
def takeHost (s : String) : String :=
  String.mk (s.toList.takeWhile (fun c => !(c == '/' || c == '?' || c == '#')))

/-- urlparse(url).netloc for the http and https URLs this program constructs. -/
def netloc (url : String) : String :=
  if startsWithStr url "https://" then takeHost (dropStr url 8)
  else if startsWithStr url "http://" then takeHost (dropStr url 7)
  else ""

/-- BrandSearchEngine._extract_domain: netloc with every occurrence of
the four characters of a www marker followed by a dot removed. -/
def extract_domain (url : String) : String := replaceStr (netloc url) "www." ""

/-- The known_retailers list of BrandSearchEngine.__init__. -/
def known_retailers : List String :=
  ["amazon", "ebay", "ssense", "net-a-porter", "farfetch",
   "asos", "lookfantastic", "selfridges", "harrods",
   "sportsdirect", "jd", "foot locker", "finish line",
   "dicks sporting goods", "finish line", "kohl",
   "nordstrom", "saks", "bloomingdale", "macy"]

inductive SiteType where
  | official
  | retailer
  | unknown
deriving DecidableEq, Repr

/-- BrandSearchEngine._classify_site: official when the lower-cased brand name
occurs in the domain, else retailer when a known retailer name occurs in the
domain, else unknown.  The source lower-cases the brand but keeps its spaces. -/
def classify_site (url brand_name : String) : SiteType :=
  let domain := extract_domain url
  let brand_lower := toLowerStr brand_name
  if isSubstr brand_lower domain then .official
  else if known_retailers.any (fun r => isSubstr r domain) then .retailer
  else .unknown

/-- Brand normalization of BrandSearchEngine._try_direct_domains:
lower-cased with spaces removed. -/
def normalizeBrand (brand_name : String) : String :=
  replaceStr (toLowerStr brand_name) " " ""

/-- Modelled from the spec: the classifier as section 4.2 words it, with the
brand name normalized (lower-cased, spaces removed) before the substring
test.  Stated only for comparison with classify_site, which is the code. -/
def classify_site_spec (url brand_name : String) : SiteType :=
  let domain := extract_domain url
  if isSubstr (normalizeBrand brand_name) domain then .official
  else if known_retailers.any (fun r => isSubstr r domain) then .retailer
  else .unknown

structure RegionInfo where
  name : String
  currency : String
  code : String
  domains : List String
deriving DecidableEq, Repr

/-- The region registry of BrandSearchEngine.__init__, in dict insertion order. -/
def regions : List (String × RegionInfo) :=
  [("US", ⟨"United States", "USD", "$", ["com", "us"]⟩),
   ("UK", ⟨"United Kingdom", "GBP", "£", ["co.uk", "uk"]⟩),
   ("Canada", ⟨"Canada", "CAD", "C$", ["ca"]⟩),
   ("UAE", ⟨"United Arab Emirates", "AED", "د.إ", ["ae"]⟩),
   ("Germany", ⟨"Germany", "EUR", "€", ["de"]⟩),
   ("Australia", ⟨"Australia", "AUD", "A$", ["au"]⟩),
   ("France", ⟨"France", "EUR", "€", ["fr"]⟩),
   ("Japan", ⟨"Japan", "JPY", "¥", ["jp"]⟩)]

/-- Candidate URL constructor: the shape of the f-strings in
_try_direct_domains. -/
def mkUrl (pre brand dom : String) : String :=
  "https://" ++ pre ++ brand ++ "." ++ dom

/-- The candidate list built by BrandSearchEngine._try_direct_domains: two
fixed .com patterns, two patterns on the region's first domain, and, when the
region has more than one domain, a www and a bare pattern for each domain. -/
def domain_patterns (brand_name : String) (domains : List String) : List String :=
  let brand_lower := normalizeBrand brand_name
  [mkUrl "www." brand_lower "com",
   mkUrl "" brand_lower "com",
   mkUrl "www." brand_lower (domains.headD ""),
   mkUrl "" brand_lower (domains.headD "")]
  ++ (if 1 < domains.length then
        domains.flatMap (fun d => [mkUrl "www." brand_lower d, mkUrl "" brand_lower d])
      else [])

/-- The probing part of BrandSearchEngine._try_direct_domains: keep a candidate
when its HEAD request answered with status below 400; a network error
(head u = none, caught by the bare except in the source) excludes it. -/
def try_direct_domains (head : String → Option Nat)
    (brand_name : String) (domains : List String) : List String :=
  (domain_patterns brand_name domains).filter (fun u =>
    match head u with
    | some code => decide (code < 400)
    | none => false)

structure Site where
  url : String
  domain : String
  type : SiteType
  region : String
  score : Nat := 0
deriving DecidableEq, Repr

/-- The site_info dict built for one URL in BrandSearchEngine._search_region. -/
def mkSiteInfo (u brand_name region_code : String) : Site :=
  { url := u, domain := extract_domain u,
    type := classify_site u brand_name, region := region_code }

/-- The categorization tail of BrandSearchEngine._search_region: skip empty or
short URLs, classify the rest, keep every official site followed by at most
three retailer sites, and drop unknown sites. -/
def categorize_urls (direct_urls : List String)
    (brand_name region_code : String) : List Site :=
  let valid := direct_urls.filter (fun u => !(u == "" || decide (u.length < 5)))
  let infos := valid.map (fun u => mkSiteInfo u brand_name region_code)
  let official_sites := infos.filter (fun s => s.type = SiteType.official)
  let retailer_sites := infos.filter (fun s => s.type = SiteType.retailer)
  official_sites ++ retailer_sites.take 3

/-- BrandSearchEngine._search_region.  When no direct candidate is reachable
the source falls back to two search queries, keeping the first non-empty
result set; the Python set union has unspecified iteration order, modelled
here as first-seen order with duplicates removed. -/
def search_region (head : String → Option Nat) (google : String → List String)
    (brand_name region_code : String) (region_info : RegionInfo) : List Site :=
  let direct := try_direct_domains head brand_name region_info.domains
  let direct_urls :=
    if direct.isEmpty then
      let first := google (brand_name ++ " official store " ++ region_info.name)
      let found :=
        if first.isEmpty then
          google (brand_name ++ " official website " ++ region_info.name)
        else first
      dedupUrls found
    else direct
  categorize_urls direct_urls brand_name region_code

/-- BrandSearchEngine.search_brand_globally: regions whose search produced no
sites are left out of the mapping. -/
def search_brand_globally (head : String → Option Nat) (google : String → List String)
    (brand_name : String) : List (String × List Site) :=
  regions.filterMap (fun ri =>
    let sites := search_region head google brand_name ri.1 ri.2
    if sites.isEmpty then none else some (ri.1, sites))

/-- BrandSearchEngine.verify_site_accessibility: HEAD status below 400;
a network error counts as inaccessible. -/
def verify_site_accessibility (head : String → Option Nat) (url : String) : Bool :=
  match head url with
  | some code => decide (code < 400)
  | none => false

/-- Insert into a score-descending list, after every entry of greater or equal
score: together with sortByScoreDesc this is Python's stable
list.sort(key=score, reverse=True). -/
def insertByScoreDesc (x : Site) : List Site → List Site
  | [] => [x]
  | y :: ys => if y.score ≤ x.score then x :: y :: ys else y :: insertByScoreDesc x ys

/-- Stable descending sort by score. -/
def sortByScoreDesc : List Site → List Site
  | [] => []
  | x :: xs => insertByScoreDesc x (sortByScoreDesc xs)

/-- The verification loop inside SmartSiteSelector.select_best_sites: keep a
site when its accessibility check passes and set its score, 10 for official
and 5 for anything else. -/
def verifyAndScore (head : String → Option Nat) (sites : List Site) : List Site :=
  sites.filterMap (fun s =>
    if verify_site_accessibility head s.url then
      some { s with score := if s.type = SiteType.official then 10 else 5 }
    else none)

/-- SmartSiteSelector.select_best_sites, chained through
search_brand_globally: drop sites that fail the accessibility check, score the
rest (official 10, otherwise 5), sort by score descending and truncate.  Every
region of the discovery result is assigned, even when verification leaves it
an empty list. -/
def select_best_sites (head : String → Option Nat) (google : String → List String)
    (brand_name : String) (max_sites : Nat) : List (String × List Site) :=
  let all_sites := search_brand_globally head google brand_name
  all_sites.map (fun rs =>
    (rs.1, (sortByScoreDesc (verifyAndScore head rs.2)).take max_sites))

/-- One HTML element, reduced to the projections ProductFinder reads from it:
text is get_text with strip, rawText is get_text without, nameChild is the
text of the first h2, h3, h4, a or span descendant (the find_all with a
limit of one in _extract_by_prices), headingChild is the text of the first
h2, h3, h4 or a descendant (the find in _extract_product_from_element),
parentText is the stripped text of the parent when there is one, and imgSrc
is the src attribute of the first img descendant when there is one. -/
structure Element where
  text : String
  rawText : String := ""
  nameChild : Option String := none
  headingChild : Option String := none
  parentText : Option String := none
  imgSrc : Option String := none
deriving DecidableEq, Repr

/-- One parsed page: select gives the element list for a CSS selector string,
priceElems is find_all over div, article, li, span and p, and links is
find_all of anchors with an href, as pairs of href and stripped text. -/
structure Soup where
  select : String → List Element
  priceElems : List Element
  links : List (String × String)

structure Product where
  name : String
  price : ℚ
  currency : String
  url : String
  image : String
deriving DecidableEq, Repr

/-- re.sub of everything that is not a digit or a dot, with empty replacement. -/
def stripNonDigitDot (s : String) : String :=
  String.mk (s.toList.filter (fun c => c.isDigit || c == '.'))

def natOfDigits (cs : List Char) : Nat :=
  cs.foldl (fun n c => n * 10 + (c.toNat - '0'.toNat)) 0

/-- Split a character list at every dot. -/
def splitOnDot : List Char → List (List Char)
  | [] => [[]]
  | c :: rest =>
    if c == '.' then [] :: splitOnDot rest
    else
      match splitOnDot rest with
      | [] => [[c]]
      | h :: t => (c :: h) :: t

/-- Python float() restricted to the digit-and-dot strings produced by
stripNonDigitDot; none models the ValueError the source catches. -/
def parseFloat (s : String) : Option ℚ :=
  match splitOnDot s.toList with
  | [a] =>
    if a.isEmpty || !a.all Char.isDigit then none
    else some (natOfDigits a)
  | [a, b] =>
    if (a.isEmpty && b.isEmpty) || !a.all Char.isDigit || !b.all Char.isDigit then none
    else some ((natOfDigits a : ℚ) + (natOfDigits b : ℚ) / (10 : ℚ) ^ b.length)
  | _ => none

def isDigitComma (c : Char) : Bool := c.isDigit || c == ','

/-- The price regex of _extract_by_prices, anchored at the head of the list: a
dollar, euro or pound sign, one or more digits or commas, an optional dot and
trailing digits. -/
def priceMatchAt : List Char → Option (List Char)
  | [] => none
  | c :: rest =>
    if c == '$' || c == '€' || c == '£' then
      let ds := rest.takeWhile isDigitComma
      if ds.isEmpty then none
      else
        match rest.drop ds.length with
        | '.' :: r2 => some (c :: ds ++ '.' :: r2.takeWhile Char.isDigit)
        | _ => some (c :: ds)
    else none

/-- re.search: try the anchored matcher at each position, leftmost first.
None of the patterns used here can match the empty string, and at any one
position at most one alternative applies, so this is exact. -/
def searchWith (matchAt : List Char → Option (List Char)) : List Char → Option (List Char)
  | [] => none
  | c :: rest =>
    match matchAt (c :: rest) with
    | some m => some m
    | none => searchWith matchAt rest

def priceSearch (s : String) : Option String :=
  (searchWith priceMatchAt s.toList).map String.mk

/-- First price pattern of _extract_product_from_element, anchored: a currency
sign, optional whitespace, digits or commas, an optional dot and digits. -/
def symPriceMatchAt : List Char → Option (List Char)
  | [] => none
  | c :: rest =>
    if c == '$' || c == '£' || c == '€' then
      let ws := rest.takeWhile Char.isWhitespace
      let rest1 := rest.drop ws.length
      let ds := rest1.takeWhile isDigitComma
      if ds.isEmpty then none
      else
        match rest1.drop ds.length with
        | '.' :: r2 => some (c :: ws ++ ds ++ '.' :: r2.takeWhile Char.isDigit)
        | _ => some (c :: ws ++ ds)
    else none

/-- Second price pattern of _extract_product_from_element, anchored: digits or
commas, an optional dot and digits, optional whitespace, then a USD, EUR or
GBP token. -/
def codePriceMatchAt (cs : List Char) : Option (List Char) :=
  let ds := cs.takeWhile isDigitComma
  if ds.isEmpty then none
  else
    let rest1 := cs.drop ds.length
    let dm : List Char × List Char :=
      match rest1 with
      | '.' :: r2 => ('.' :: r2.takeWhile Char.isDigit, r2.drop (r2.takeWhile Char.isDigit).length)
      | _ => ([], rest1)
    let ws := dm.2.takeWhile Char.isWhitespace
    let rest2 := dm.2.drop ws.length
    if leadSeg ['U', 'S', 'D'] rest2 then some (ds ++ dm.1 ++ ws ++ ['U', 'S', 'D'])
    else if leadSeg ['E', 'U', 'R'] rest2 then some (ds ++ dm.1 ++ ws ++ ['E', 'U', 'R'])
    else if leadSeg ['G', 'B', 'P'] rest2 then some (ds ++ dm.1 ++ ws ++ ['G', 'B', 'P'])
    else none

/-- ProductFinder._extract_product_from_element: name from the first heading
or anchor descendant with a fixed fallback, price by the two regexes in order
where a parse failure keeps the previous value, currency from glyph or token
occurrence, and no record at all unless the price ended up positive. -/
def extract_product_from_element (element : Element) (site_url : String) : Option Product :=
  let name := element.headingChild.getD "Product"
  let txt := element.rawText
  let price1 : ℚ :=
    match searchWith symPriceMatchAt txt.toList with
    | some m => (parseFloat (stripNonDigitDot (String.mk m))).getD 0
    | none => 0
  let price : ℚ :=
    if 0 < price1 then price1
    else
      match searchWith codePriceMatchAt txt.toList with
      | some m => (parseFloat (stripNonDigitDot (String.mk m))).getD 0
      | none => price1
  let currency :=
    if isSubstr "€" txt || isSubstr "EUR" (toUpperStr txt) then "EUR"
    else if isSubstr "£" txt || isSubstr "GBP" (toUpperStr txt) then "GBP"
    else "USD"
  if 0 < price then
    some { name := name, price := price, currency := currency,
           url := site_url, image := element.imgSrc.getD "" }
  else none

/-- The candidate one element contributes in ProductFinder._extract_by_prices:
a price match in the stripped text, a name from the single heading, anchor or
span child found with limit one, falling back to the first fifty characters
of the parent text (or own text without a parent), accepted only when the
parsed price is positive and the name longer than five characters. -/
def byPriceCandidate (element : Element) (site_url : String) : Option Product :=
  let text := element.text
  match priceSearch text with
  | none => none
  | some price_str =>
    let name0 := element.nameChild.getD ""
    let name :=
      if name0 == "" then
        match element.parentText with
        | some pt => takeStr pt 50
        | none => takeStr text 50
      else name0
    let price := (parseFloat (stripNonDigitDot price_str)).getD 0
    if 0 < price ∧ 5 < name.length then
      some { name := name, price := price,
             currency :=
               if isSubstr "$" price_str then "USD"
               else if isSubstr "€" price_str then "EUR" else "GBP",
             url := site_url, image := "" }
    else none

/-- The element loop of ProductFinder._extract_by_prices: skip elements with
no accepted candidate, drop candidates whose lower-cased name is already
present, and return as soon as the list reaches the limit. -/
def extract_by_prices_go (site_url : String) (limit : Nat) :
    List Element → List Product → List Product
  | [], products => products
  | e :: rest, products =>
    match byPriceCandidate e site_url with
    | none => extract_by_prices_go site_url limit rest products
    | some product =>
      let products' :=
        if products.any (fun p => toLowerStr p.name == toLowerStr product.name) then products
        else products ++ [product]
      if limit ≤ products'.length then products'
      else extract_by_prices_go site_url limit rest products'

/-- ProductFinder._extract_by_prices. -/
def extract_by_prices (soup : Soup) (site_url : String) (limit : Nat) : List Product :=
  extract_by_prices_go site_url limit soup.priceElems []

/-- The selector list of ProductFinder._extract_products_from_page. -/
def selectors : List String :=
  ["div[class*=\"product\"]",
   "article[class*=\"product\"]",
   "li[class*=\"product\"]",
   "div[class*=\"item\"]",
   "article[class*=\"item\"]",
   "div[data-product-id]",
   "article[data-product]"]

/-- The selector loop of ProductFinder._extract_products_from_page: a selector
is tried only when it matches at least three elements, extracted products
accumulate across selectors, the loop returns as soon as three products exist,
and when the loop ends with no product the price fallback runs. -/
def extract_from_page_go (soup : Soup) (site_url : String) (limit : Nat) :
    List String → List Product → List Product
  | [], products =>
    if products.isEmpty then extract_by_prices soup site_url limit else products
  | sel :: rest, products =>
    let elements := soup.select sel
    if 3 ≤ elements.length then
      let products' := products ++
        (elements.take limit).filterMap (fun e => extract_product_from_element e site_url)
      if 3 ≤ products'.length then products'
      else extract_from_page_go soup site_url limit rest products'
    else extract_from_page_go soup site_url limit rest products

/-- ProductFinder._extract_products_from_page. -/
def extract_products_from_page (soup : Soup) (site_url : String) (limit : Nat) : List Product :=
  extract_from_page_go soup site_url limit selectors []

/-- The URL list of ProductFinder._search_products_on_site (query not encoded
there). -/
def on_site_search_urls (site_url query : String) : List String :=
  let base_url := rstripSlash site_url
  [base_url ++ "/search?q=" ++ query,
   base_url ++ "/search?query=" ++ query,
   base_url ++ "/products?search=" ++ query,
   base_url ++ "/shop?search=" ++ query,
   base_url ++ "/collections/all",
   base_url ++ "/products"]

/-- The URL list of ProductFinder._scrape_shop_page. -/
def shop_urls (site_url : String) : List String :=
  let base_url := rstripSlash site_url
  [base_url ++ "/shop", base_url ++ "/products", base_url ++ "/catalog",
   base_url ++ "/store", base_url]

/-- The URL list of ProductFinder._scrape_collections_page. -/
def collections_urls (site_url : String) : List String :=
  let base_url := rstripSlash site_url
  [base_url ++ "/collections/all", base_url ++ "/collections/products"]

/-- Python str.replace of spaces by plus signs, as applied to the query in
ProductFinder.search_products. -/
def plusJoin (q : String) : String := replaceStr q " " "+"

/-- The URL list of ProductFinder.search_products. -/
def search_query_urls (site_url search_query : String) : List String :=
  let base_url := rstripSlash site_url
  [base_url ++ "/search?q=" ++ plusJoin search_query,
   base_url ++ "/search?query=" ++ plusJoin search_query,
   base_url ++ "/products?search=" ++ plusJoin search_query,
   base_url ++ "/shop?search=" ++ plusJoin search_query]

/-- The shared fetch-extract loop of the strategy methods: a fetch failure
moves on keeping the previous extraction, a success overwrites it, and the
loop returns early once an extraction has at least three products; at the end
the last extraction (possibly short) is returned. -/
def try_extract_urls (fetch : String → Option Soup) (site_url : String) (limit : Nat) :
    List String → List Product → List Product
  | [], products => products
  | u :: rest, products =>
    match fetch u with
    | none => try_extract_urls fetch site_url limit rest products
    | some soup =>
      let ps := extract_products_from_page soup site_url limit
      if 3 ≤ ps.length then ps
      else try_extract_urls fetch site_url limit rest ps

/-- ProductFinder._search_products_on_site. -/
def search_products_on_site (fetch : String → Option Soup)
    (site_url query : String) (limit : Nat) : List Product :=
  try_extract_urls fetch site_url limit (on_site_search_urls site_url query) []

/-- ProductFinder._scrape_shop_page. -/
def scrape_shop_page (fetch : String → Option Soup) (site_url : String) (limit : Nat) : List Product :=
  try_extract_urls fetch site_url limit (shop_urls site_url) []

/-- The category-link discovery of ProductFinder._scrape_category_page. -/
def category_links (soup : Soup) (base_url : String) : List String :=
  soup.links.filterMap (fun hl =>
    let href := hl.1
    let text := toLowerStr hl.2
    if (["category", "collection", "men", "women", "product"].any
          (fun w => isSubstr w (toLowerStr href)))
        && (decide (2 < text.length) && decide (text.length < 30))
        && !(["home", "about", "contact"].any (fun t => text == t)) then
      some (if startsWithStr href "http" then href
            else base_url ++ (if startsWithStr href "/" then "" else "/") ++ href)
    else none)

/-- ProductFinder._scrape_category_page: fetch the homepage, collect category
links, and run the shared loop over the first three of them. -/
def scrape_category_page (fetch : String → Option Soup) (site_url : String) (limit : Nat) : List Product :=
  let base_url := rstripSlash site_url
  match fetch base_url with
  | none => []
  | some soup =>
    try_extract_urls fetch site_url limit ((category_links soup base_url).take 3) []

/-- ProductFinder._scrape_collections_page. -/
def scrape_collections_page (fetch : String → Option Soup) (site_url : String) (limit : Nat) : List Product :=
  try_extract_urls fetch site_url limit (collections_urls site_url) []

/-- The four strategy results of ProductFinder.get_top_products, in source
order; the source builds this list eagerly before scanning it. -/
def strategyResults (fetch : String → Option Soup)
    (site_url brand_name : String) (limit : Nat) : List (List Product) :=
  [search_products_on_site fetch site_url "all" limit,
   scrape_shop_page fetch site_url limit,
   scrape_category_page fetch site_url limit,
   scrape_collections_page fetch site_url limit]

/-- The strategy scan of ProductFinder.get_top_products: first non-empty
result with at least three products, truncated to the limit; otherwise the
empty initial list. -/
def get_top_go (limit : Nat) : List (List Product) → List Product
  | [] => []
  | ps :: rest =>
    if !ps.isEmpty && decide (3 ≤ ps.length) then ps.take limit
    else get_top_go limit rest

/-- ProductFinder.get_top_products. -/
def get_top_products (fetch : String → Option Soup)
    (site_url brand_name : String) (limit : Nat) : List Product :=
  get_top_go limit (strategyResults fetch site_url brand_name limit)

/-- The URL loop of ProductFinder.search_products: extract with limit five,
keep products whose lower-cased name contains the lower-cased query,
accumulate across URLs, and return as soon as the accumulator is non-empty. -/
def search_products_go (fetch : String → Option Soup) (site_url search_query : String) :
    List String → List Product → List Product
  | [], products => products
  | u :: rest, products =>
    match fetch u with
    | none => search_products_go fetch site_url search_query rest products
    | some soup =>
      let page_products := extract_products_from_page soup site_url 5
      let products' := products ++ page_products.filter
        (fun p => isSubstr (toLowerStr search_query) (toLowerStr p.name))
      if products'.isEmpty then search_products_go fetch site_url search_query rest products'
      else products'

/-- ProductFinder.search_products (the brand name and retry count are unused
by the source body). -/
def search_products (fetch : String → Option Soup)
    (site_url search_query brand_name : String) : List Product :=
  search_products_go fetch site_url search_query (search_query_urls site_url search_query) []

structure PriceEntry where
  site : String
  price : ℚ
  currency : String
  name : String
deriving DecidableEq, Repr

/-- ProductAggregator.aggregate_product_prices: per region, collect an entry
for every product of every site's search result whose price is positive; a
region whose collection is empty is left out of the mapping. -/
def aggregate_product_prices (fetch : String → Option Soup)
    (sites_by_region : List (String × List String)) (product_name : String) :
    List (String × List PriceEntry) :=
  sites_by_region.filterMap (fun rs =>
    let region_prices := rs.2.flatMap (fun site_url =>
      (search_products fetch site_url product_name rs.1).filterMap (fun product =>
        if 0 < product.price then
          some { site := site_url, price := product.price,
                 currency := product.currency, name := product.name }
        else none))
    if region_prices.isEmpty then none else some (rs.1, region_prices))

/-! Concrete oracles and fixtures used by witness and counterexample theorems. -/

def ce1 : Element := { text := "$10", nameChild := some "align leggings a" }

def ce2 : Element := { text := "$20", nameChild := some "align leggings b" }

def cSoup : Soup := { select := fun _ => [], priceElems := [ce1, ce2], links := [] }

def cFetch : String → Option Soup :=
  fun u => if u == "https://s.com/search?q=align" then some cSoup else none

def cP1 : Product :=
  { name := "align leggings a", price := 10, currency := "USD",
    url := "https://s.com", image := "" }

def cE1 : PriceEntry :=
  { site := "https://s.com", price := 10, currency := "USD", name := "align leggings a" }

def cE2 : PriceEntry :=
  { site := "https://s.com", price := 20, currency := "USD", name := "align leggings b" }

def cList : List PriceEntry := [cE1, cE2]

def de1 : Element := { text := "$5", nameChild := some "product one!!" }

def de2 : Element := { text := "$6", nameChild := some "product two!!" }

def de3 : Element := { text := "$7", nameChild := some "product three" }

def dSoup : Soup := { select := fun _ => [], priceElems := [de1, de2, de3], links := [] }

def dFetch : String → Option Soup :=
  fun u => if u == "https://d.com/search?q=all" then some dSoup else none

def dProducts : List Product :=
  [{ name := "product one!!", price := 5, currency := "USD", url := "https://d.com", image := "" },
   { name := "product two!!", price := 6, currency := "USD", url := "https://d.com", image := "" },
   { name := "product three", price := 7, currency := "USD", url := "https://d.com", image := "" }]

def headNone : String → Option Nat := fun _ => none

def googleOne : String → List String := fun _ => ["https://www.nikestore.xyz"]

def headSel : String → Option Nat :=
  fun u => if u == "https://www.nikestore.xyz" then some 200 else none

def gSite : Site :=
  { url := "https://www.nikestore.xyz", domain := "nikestore.xyz",
    type := SiteType.official, region := "US", score := 10 }

def hd400 : String → Option Nat :=
  fun u => if u == "https://nike.de" then some 200 else some 500

def cUrls : List String :=
  ["https://nike.com", "https://amazon.com", "https://www.amazon.de",
   "https://amazon.co.uk", "https://www.amazon.fr"]

/-! Helper lemmas. -/

theorem mem_insertByScoreDesc {x y : Site} {l : List Site}
    (h : y ∈ insertByScoreDesc x l) : y = x ∨ y ∈ l := by
  induction l with
  | nil => simpa [insertByScoreDesc] using h
  | cons a as ih =>
    unfold insertByScoreDesc at h
    by_cases hc : a.score ≤ x.score
    · rw [if_pos hc] at h
      rcases List.mem_cons.mp h with rfl | h
      · exact Or.inl rfl
      · exact Or.inr h
    · rw [if_neg hc] at h
      rcases List.mem_cons.mp h with rfl | h
      · exact Or.inr (List.mem_cons_self _ _)
      · rcases ih h with h | h
        · exact Or.inl h
        · exact Or.inr (List.mem_cons_of_mem _ h)

theorem sorted_insertByScoreDesc {x : Site} {l : List Site}
    (h : l.Pairwise (fun a b => b.score ≤ a.score)) :
    (insertByScoreDesc x l).Pairwise (fun a b => b.score ≤ a.score) := by
  induction l with
  | nil => simp [insertByScoreDesc]
  | cons a as ih =>
    rw [List.pairwise_cons] at h
    obtain ⟨ha, has⟩ := h
    unfold insertByScoreDesc
    by_cases hc : a.score ≤ x.score
    · rw [if_pos hc]
      refine List.Pairwise.cons ?_ (List.Pairwise.cons ha has)
      intro z hz
      rcases List.mem_cons.mp hz with rfl | hz
      · exact hc
      · exact le_trans (ha z hz) hc
    · rw [if_neg hc]
      refine List.Pairwise.cons ?_ (ih has)
      intro z hz
      rcases mem_insertByScoreDesc hz with rfl | hz
      · exact Nat.le_of_lt (Nat.lt_of_not_le hc)
      · exact ha z hz

theorem mem_sortByScoreDesc {y : Site} {l : List Site}
    (h : y ∈ sortByScoreDesc l) : y ∈ l := by
  induction l with
  | nil => simpa [sortByScoreDesc] using h
  | cons a as ih =>
    unfold sortByScoreDesc at h
    rcases mem_insertByScoreDesc h with rfl | h
    · exact List.mem_cons_self _ _
    · exact List.mem_cons_of_mem _ (ih h)

theorem sorted_sortByScoreDesc (l : List Site) :
    (sortByScoreDesc l).Pairwise (fun a b => b.score ≤ a.score) := by
  induction l with
  | nil => simp [sortByScoreDesc]
  | cons a as ih =>
    unfold sortByScoreDesc
    exact sorted_insertByScoreDesc ih

theorem verifyAndScore_mem {head : String → Option Nat} {sites : List Site} {s : Site}
    (h : s ∈ verifyAndScore head sites) :
    s.score = if s.type = SiteType.official then 10 else 5 := by
  rw [verifyAndScore, List.mem_filterMap] at h
  obtain ⟨s0, _, heq⟩ := h
  split at heq
  · cases heq
    rfl
  · cases heq

theorem select_best_sites_mem {head : String → Option Nat} {google : String → List String}
    {brand_name : String} {max_sites : Nat} {r : String} {l : List Site}
    (h : (r, l) ∈ select_best_sites head google brand_name max_sites) :
    ∃ sites : List Site,
      l = (sortByScoreDesc (verifyAndScore head sites)).take max_sites := by
  simp only [select_best_sites] at h
  rw [List.mem_map] at h
  obtain ⟨rs, _, heq⟩ := h
  cases heq
  exact ⟨rs.2, rfl⟩

theorem select_best_sites_key_discovered {head : String → Option Nat}
    {google : String → List String} {brand_name : String} {max_sites : Nat}
    {r : String} {l : List Site}
    (h : (r, l) ∈ select_best_sites head google brand_name max_sites) :
    ∃ ri : String × RegionInfo, ri ∈ regions ∧ ri.1 = r
      ∧ search_region head google brand_name ri.1 ri.2 ≠ [] := by
  simp only [select_best_sites] at h
  rw [List.mem_map] at h
  obtain ⟨rs, hrs, heq⟩ := h
  simp only [search_brand_globally] at hrs
  rw [List.mem_filterMap] at hrs
  obtain ⟨ri, hri, hif⟩ := hrs
  split at hif
  · cases hif
  · rename_i hne
    cases hif
    cases heq
    refine ⟨ri, hri, rfl, ?_⟩
    intro h0
    exact hne (List.isEmpty_iff.mpr h0)

theorem countP_retailer_officials (l : List Site) :
    (l.filter (fun s => s.type = SiteType.official)).countP
      (fun s => s.type = SiteType.retailer) = 0 := by
  rw [List.countP_eq_zero]
  intro s hs
  rw [List.mem_filter] at hs
  have h := of_decide_eq_true hs.2
  simp [h]

theorem pairwise_ord_of_forall_not_retailer {l : List Site}
    (h : ∀ s ∈ l, s.type ≠ SiteType.retailer) :
    l.Pairwise (fun a b => a.type = SiteType.retailer → b.type ≠ SiteType.official) := by
  induction l with
  | nil => exact List.Pairwise.nil
  | cons a as ih =>
    refine List.Pairwise.cons ?_ (ih fun s hs => h s (List.mem_cons_of_mem _ hs))
    intro b _ hra
    exact absurd hra (h a (List.mem_cons_self _ _))

theorem pairwise_ord_of_forall_not_official {l : List Site}
    (h : ∀ s ∈ l, s.type ≠ SiteType.official) :
    l.Pairwise (fun a b => a.type = SiteType.retailer → b.type ≠ SiteType.official) := by
  induction l with
  | nil => exact List.Pairwise.nil
  | cons a as ih =>
    refine List.Pairwise.cons ?_ (ih fun s hs => h s (List.mem_cons_of_mem _ hs))
    intro b hb _
    exact h b (List.mem_cons_of_mem _ hb)

/-! Claim theorems for the search-engine side. -/

/-- C2 fails on the code: a URL that classifies as unknown is dropped by the
categorization in _search_region, not retained with score zero.  The URL
here is valid and classified unknown, yet the region's site list is empty. -/
theorem C2_counterexample :
    classify_site "https://randomshop.xyz" "nike" = SiteType.unknown
    ∧ categorize_urls ["https://randomshop.xyz"] "nike" "US" = [] := by decide

/-- C2 (amended): sites classified unknown are discarded during region
categorization rather than retained, and the selector assigns score 10 to
official sites and score 5 to every other retained site; no score 0 exists. -/
theorem C2_unknown_discarded_and_scoring (head : String → Option Nat)
    (google : String → List String) (brand_name : String) (max_sites : Nat) :
    (∀ (urls : List String) (region_code : String) (s : Site),
        s ∈ categorize_urls urls brand_name region_code → s.type ≠ SiteType.unknown)
    ∧ (∀ (r : String) (l : List Site) (s : Site),
        (r, l) ∈ select_best_sites head google brand_name max_sites → s ∈ l →
        s.score = if s.type = SiteType.official then 10 else 5) := by
  constructor
  · intro urls region_code s hs
    simp only [categorize_urls] at hs
    rw [List.mem_append] at hs
    rcases hs with hs | hs
    · rw [List.mem_filter] at hs
      have h := of_decide_eq_true hs.2
      rw [h]
      decide
    · have hs' := List.mem_of_mem_take hs
      rw [List.mem_filter] at hs'
      have h := of_decide_eq_true hs'.2
      rw [h]
      decide
  · intro r l s hsel hmem
    obtain ⟨sites, rfl⟩ := select_best_sites_mem hsel
    exact verifyAndScore_mem (mem_sortByScoreDesc (List.mem_of_mem_take hmem))

/-- C2 witness at concrete inputs: an official site survives categorization
with a non-unknown type, and a selected site carries the 10-or-5 score. -/
theorem C2_witness :
    (mkSiteInfo "https://nike.com" "nike" "US").type ≠ SiteType.unknown
    ∧ gSite.score = if gSite.type = SiteType.official then 10 else 5 :=
  ⟨(C2_unknown_discarded_and_scoring headSel googleOne "nike" 5).1
      ["https://nike.com"] "US" (mkSiteInfo "https://nike.com" "nike" "US") (by decide),
   (C2_unknown_discarded_and_scoring headSel googleOne "nike" 5).2
      "US" [gSite] gSite (by decide) (by decide)⟩

/-- C4 fails on its last part: with every direct probe failing, the fallback
search finding one official site per region, and the accessibility
verification rejecting it, select_best_sites keeps the region in the mapping
paired with an empty list instead of omitting it. -/
theorem C4_counterexample :
    ("US", ([] : List Site)) ∈ select_best_sites headNone googleOne "nike" 5 := by decide

/-- C4 (amended): select_best_sites returns at most max_sites entries per
region and never places an official-classified entry after a
retailer-classified one; every region present in the mapping is a registry
region whose discovery produced a non-empty site list, so a region with zero
discovered sites is absent — but a region whose discovered sites all fail the
accessibility verification stays in the mapping with an empty sequence. -/
theorem C4_cap_and_order (head : String → Option Nat) (google : String → List String)
    (brand_name : String) (max_sites : Nat) :
    ∀ (r : String) (l : List Site),
      (r, l) ∈ select_best_sites head google brand_name max_sites →
      l.length ≤ max_sites
      ∧ l.Pairwise (fun a b => a.type = SiteType.retailer → b.type ≠ SiteType.official)
      ∧ ∃ ri : String × RegionInfo, ri ∈ regions ∧ ri.1 = r
          ∧ search_region head google brand_name ri.1 ri.2 ≠ [] := by
  intro r l hsel
  have hdisc := select_best_sites_key_discovered hsel
  obtain ⟨sites, rfl⟩ := select_best_sites_mem hsel
  refine ⟨?_, ?_, hdisc⟩
  · rw [List.length_take]
    exact min_le_left _ _
  · have hsorted := sorted_sortByScoreDesc (verifyAndScore head sites)
    have hpair : (sortByScoreDesc (verifyAndScore head sites)).Pairwise
        (fun a b => a.type = SiteType.retailer → b.type ≠ SiteType.official) := by
      refine hsorted.imp_of_mem ?_
      intro a b ha hb hle hret hoff
      have hsa := verifyAndScore_mem (mem_sortByScoreDesc ha)
      have hsb := verifyAndScore_mem (mem_sortByScoreDesc hb)
      rw [hret] at hsa
      rw [hoff] at hsb
      simp at hsa hsb
      omega
    exact List.Pairwise.sublist (List.take_sublist _ _) hpair

/-- C4 witness at concrete inputs: the selected US list obeys the cap and the
ordering, and the US key comes from a registry region with a non-empty
discovery result. -/
theorem C4_witness :
    ([gSite].length ≤ 5)
    ∧ [gSite].Pairwise (fun a b => a.type = SiteType.retailer → b.type ≠ SiteType.official)
    ∧ ∃ ri : String × RegionInfo, ri ∈ regions ∧ ri.1 = "US"
        ∧ search_region headSel googleOne "nike" ri.1 ri.2 ≠ [] :=
  C4_cap_and_order headSel googleOne "nike" 5 "US" [gSite] (by decide)

/-- C7: every URL the prober returns had a HEAD response (never a caught
network error) with status below 400, and a candidate whose HEAD errored is
never returned. -/
theorem C7_probe_only_reachable (head : String → Option Nat)
    (brand_name : String) (domains : List String) :
    (∀ u ∈ try_direct_domains head brand_name domains,
        head u ≠ none ∧ (head u).getD 0 < 400)
    ∧ ∀ u, head u = none → u ∉ try_direct_domains head brand_name domains := by
  constructor
  · intro u hu
    rw [try_direct_domains, List.mem_filter] at hu
    obtain ⟨-, hcond⟩ := hu
    cases hc : head u with
    | none => rw [hc] at hcond; simp at hcond
    | some c =>
      rw [hc] at hcond
      simp only [decide_eq_true_eq] at hcond
      exact ⟨by simp, by simpa using hcond⟩
  · intro u hn hu
    rw [try_direct_domains, List.mem_filter] at hu
    rw [hn] at hu
    simp at hu

/-- C7 witness at concrete inputs: the returned candidate answered 200, and
with an erroring oracle a candidate is excluded. -/
theorem C7_witness :
    (hd400 "https://nike.de" ≠ none ∧ (hd400 "https://nike.de").getD 0 < 400)
    ∧ "https://www.nike.com" ∉ try_direct_domains headNone "Nike" ["de"] :=
  ⟨(C7_probe_only_reachable hd400 "Nike" ["de"]).1 "https://nike.de" (by decide),
   (C7_probe_only_reachable headNone "Nike" ["de"]).2 "https://www.nike.com" rfl⟩

/-- C8 fails on the code for brand names containing a space: the classifier
lower-cases the brand but keeps its spaces, so a brand whose spec-normalized
form (lower-cased, spaces removed) occurs in the domain can still classify as
unknown.  classify_site_spec is the spec-worded rule for comparison. -/
theorem C8_counterexample :
    classify_site "https://foobar.com" "Foo Bar" = SiteType.unknown
    ∧ classify_site_spec "https://foobar.com" "Foo Bar" = SiteType.official := by decide

/-- C8 (amended): classify_site is a pure function of its two arguments and
applies its rules in order with first match winning, with the brand name
lower-cased but spaces preserved: official exactly when the lower-cased brand
occurs in the domain, retailer exactly when it does not and a known retailer
name occurs, unknown exactly when neither occurs; official therefore takes
precedence over retailer when both conditions hold. -/
theorem C8_classify_rule_order (url brand_name : String) :
    (classify_site url brand_name = SiteType.official ↔
      isSubstr (toLowerStr brand_name) (extract_domain url) = true)
    ∧ (classify_site url brand_name = SiteType.retailer ↔
      isSubstr (toLowerStr brand_name) (extract_domain url) = false
      ∧ (known_retailers.any fun r => isSubstr r (extract_domain url)) = true)
    ∧ (classify_site url brand_name = SiteType.unknown ↔
      isSubstr (toLowerStr brand_name) (extract_domain url) = false
      ∧ (known_retailers.any fun r => isSubstr r (extract_domain url)) = false) := by
  unfold classify_site
  cases hb : isSubstr (toLowerStr brand_name) (extract_domain url) <;>
    cases hr : (known_retailers.any fun r => isSubstr r (extract_domain url)) <;>
      simp [hb, hr]

/-- C9: in every categorized region list, at most three retailer-classified
sites appear, no official-classified site follows a retailer-classified one,
and every valid URL classified official yields an entry, uncapped. -/
theorem C9_region_list_shape (urls : List String) (brand_name region_code : String) :
    ((categorize_urls urls brand_name region_code).countP
        (fun s => s.type = SiteType.retailer) ≤ 3)
    ∧ (categorize_urls urls brand_name region_code).Pairwise
        (fun a b => a.type = SiteType.retailer → b.type ≠ SiteType.official)
    ∧ (∀ u ∈ urls, 5 ≤ u.length → classify_site u brand_name = SiteType.official →
        mkSiteInfo u brand_name region_code ∈ categorize_urls urls brand_name region_code) := by
  refine ⟨?_, ?_, ?_⟩
  · simp only [categorize_urls]
    rw [List.countP_append, countP_retailer_officials]
    have h1 := List.countP_le_length
      (fun s => decide (s.type = SiteType.retailer))
      (l := ((urls.filter (fun u => !(u == "" || decide (u.length < 5)))).map
        (fun u => mkSiteInfo u brand_name region_code)).filter
          (fun s => s.type = SiteType.retailer) |>.take 3)
    have h2 : (((urls.filter (fun u => !(u == "" || decide (u.length < 5)))).map
        (fun u => mkSiteInfo u brand_name region_code)).filter
          (fun s => s.type = SiteType.retailer) |>.take 3).length ≤ 3 := by
      rw [List.length_take]
      exact min_le_left _ _
    omega
  · simp only [categorize_urls]
    rw [List.pairwise_append]
    refine ⟨?_, ?_, ?_⟩
    · apply pairwise_ord_of_forall_not_retailer
      intro s hs
      rw [List.mem_filter] at hs
      have h := of_decide_eq_true hs.2
      rw [h]
      decide
    · apply pairwise_ord_of_forall_not_official
      intro s hs
      have hs' := List.mem_of_mem_take hs
      rw [List.mem_filter] at hs'
      have h := of_decide_eq_true hs'.2
      rw [h]
      decide
    · intro a _ b hb _
      have hb' := List.mem_of_mem_take hb
      rw [List.mem_filter] at hb'
      have h := of_decide_eq_true hb'.2
      rw [h]
      decide
  · intro u hu hlen hoff
    simp only [categorize_urls]
    rw [List.mem_append]
    left
    rw [List.mem_filter]
    constructor
    · rw [List.mem_map]
      refine ⟨u, ?_, rfl⟩
      rw [List.mem_filter]
      refine ⟨hu, ?_⟩
      have hne : u ≠ "" := by
        intro h0
        rw [h0] at hlen
        exact absurd hlen (by decide)
      have h5 : ¬(u.length < 5) := Nat.not_lt.mpr hlen
      simp [hne, h5]
    · simp [mkSiteInfo, hoff]

/-- C9 witness at concrete inputs: with one official and four retailer URLs
the retailer count is capped and the official site is present. -/
theorem C9_witness :
    ((categorize_urls cUrls "nike" "US").countP (fun s => s.type = SiteType.retailer) ≤ 3)
    ∧ mkSiteInfo "https://nike.com" "nike" "US" ∈ categorize_urls cUrls "nike" "US" :=
  ⟨(C9_region_list_shape cUrls "nike" "US").1,
   (C9_region_list_shape cUrls "nike" "US").2.2 "https://nike.com"
     (by decide) (by decide) (by decide)⟩

/-- C3 fails on the code: the prober always probes the two .com patterns, so
for a region whose candidate domain list is only de, the candidate
https-www-nike-com is constructed even though com is outside the region's
candidate domains (neither www nor bare pattern over de equals it). -/
theorem C3_counterexample :
    "https://www.nike.com" ∈ domain_patterns "Nike" ["de"]
    ∧ mkUrl "www." (normalizeBrand "Nike") "de" ≠ "https://www.nike.com"
    ∧ mkUrl "" (normalizeBrand "Nike") "de" ≠ "https://www.nike.com" := by decide

/-- C3 (amended): every candidate URL the prober constructs has the form
https, optional www dot, the normalized brand, a dot and a domain, where the
domain is drawn from the region's candidate domains extended with com. -/
theorem C3_candidate_url_shape (brand_name : String) (domains : List String)
    (hne : domains ≠ []) :
    ∀ u ∈ domain_patterns brand_name domains,
      u ∈ (["www.", ""] : List String).flatMap (fun pre =>
        ("com" :: domains).map (fun d => mkUrl pre (normalizeBrand brand_name) d)) := by
  intro u hu
  have hhead : domains.headD "" ∈ domains := by
    cases domains with
    | nil => exact absurd rfl hne
    | cons a as => exact List.mem_cons_self _ _
  rw [List.mem_flatMap]
  simp only [domain_patterns] at hu
  rw [List.mem_append] at hu
  rcases hu with hu | hu
  · rcases hu with _ | ⟨_, _ | ⟨_, _ | ⟨_, _ | ⟨_, h⟩⟩⟩⟩
    · exact ⟨"www.", by decide, List.mem_map.mpr ⟨"com", List.mem_cons_self _ _, rfl⟩⟩
    · exact ⟨"", by decide, List.mem_map.mpr ⟨"com", List.mem_cons_self _ _, rfl⟩⟩
    · exact ⟨"www.", by decide,
        List.mem_map.mpr ⟨domains.headD "", List.mem_cons_of_mem _ hhead, rfl⟩⟩
    · exact ⟨"", by decide,
        List.mem_map.mpr ⟨domains.headD "", List.mem_cons_of_mem _ hhead, rfl⟩⟩
    · exact absurd h (List.not_mem_nil _)
  · by_cases h1 : 1 < domains.length
    · rw [if_pos h1, List.mem_flatMap] at hu
      obtain ⟨d, hd, hud⟩ := hu
      rcases hud with _ | ⟨_, _ | ⟨_, h⟩⟩
      · exact ⟨"www.", by decide, List.mem_map.mpr ⟨d, List.mem_cons_of_mem _ hd, rfl⟩⟩
      · exact ⟨"", by decide, List.mem_map.mpr ⟨d, List.mem_cons_of_mem _ hd, rfl⟩⟩
      · exact absurd h (List.not_mem_nil _)
    · rw [if_neg h1] at hu
      exact absurd hu (List.not_mem_nil _)

/-- C3 witness at concrete inputs: the probed candidate over de has the
required form. -/
theorem C3_witness :
    "https://nike.de" ∈ (["www.", ""] : List String).flatMap (fun pre =>
      ("com" :: (["de"] : List String)).map (fun d => mkUrl pre (normalizeBrand "Nike") d)) :=
  C3_candidate_url_shape "Nike" ["de"] (by decide) "https://nike.de" (by decide)

/-! Helper lemmas for the extraction side. -/

theorem extract_element_price_pos {e : Element} {site_url : String} {p : Product}
    (h : extract_product_from_element e site_url = some p) : 0 < p.price := by
  simp only [extract_product_from_element] at h
  rw [Option.ite_none_right_eq_some] at h
  obtain ⟨hpos, heq⟩ := h
  cases heq
  exact hpos

theorem byPriceCandidate_props {e : Element} {site_url : String} {p : Product}
    (h : byPriceCandidate e site_url = some p) :
    0 < p.price ∧ 5 < p.name.length := by
  simp only [byPriceCandidate] at h
  cases hps : priceSearch e.text with
  | none => simp [hps] at h
  | some price_str =>
    simp only [hps] at h
    rw [Option.ite_none_right_eq_some] at h
    obtain ⟨⟨hpos, hlen⟩, heq⟩ := h
    cases heq
    exact ⟨hpos, hlen⟩

theorem extract_by_prices_go_mem {site_url : String} {limit : Nat} :
    ∀ (elems : List Element) (acc : List Product),
      (∀ p ∈ acc, 0 < p.price ∧ 5 < p.name.length) →
      ∀ p ∈ extract_by_prices_go site_url limit elems acc,
        0 < p.price ∧ 5 < p.name.length := by
  intro elems
  induction elems with
  | nil =>
    intro acc hacc p hp
    simp only [extract_by_prices_go] at hp
    exact hacc p hp
  | cons e rest ih =>
    intro acc hacc p hp
    simp only [extract_by_prices_go] at hp
    cases hc : byPriceCandidate e site_url with
    | none =>
      simp only [hc] at hp
      exact ih acc hacc p hp
    | some prod =>
      simp only [hc] at hp
      have hprod := byPriceCandidate_props hc
      by_cases hany : acc.any (fun x => toLowerStr x.name == toLowerStr prod.name) = true
      · rw [if_pos hany] at hp
        split at hp
        · exact hacc p hp
        · exact ih acc hacc p hp
      · rw [if_neg hany] at hp
        have hacc' : ∀ q ∈ acc ++ [prod], 0 < q.price ∧ 5 < q.name.length := by
          intro q hq
          rcases List.mem_append.mp hq with hq | hq
          · exact hacc q hq
          · rcases List.mem_singleton.mp hq with rfl
            exact hprod
        split at hp
        · exact hacc' p hp
        · exact ih _ hacc' p hp

theorem extract_by_prices_go_pairwise {site_url : String} {limit : Nat} :
    ∀ (elems : List Element) (acc : List Product),
      acc.Pairwise (fun a b => toLowerStr a.name ≠ toLowerStr b.name) →
      (extract_by_prices_go site_url limit elems acc).Pairwise
        (fun a b => toLowerStr a.name ≠ toLowerStr b.name) := by
  intro elems
  induction elems with
  | nil =>
    intro acc hacc
    simpa only [extract_by_prices_go] using hacc
  | cons e rest ih =>
    intro acc hacc
    simp only [extract_by_prices_go]
    cases hc : byPriceCandidate e site_url with
    | none => exact ih acc hacc
    | some prod =>
      dsimp only
      by_cases hany : acc.any (fun x => toLowerStr x.name == toLowerStr prod.name) = true
      · rw [if_pos hany]
        split
        · exact hacc
        · exact ih acc hacc
      · rw [if_neg hany]
        have hany' : acc.any (fun x => toLowerStr x.name == toLowerStr prod.name) = false := by
          revert hany
          cases acc.any (fun x => toLowerStr x.name == toLowerStr prod.name) <;> simp
        have hacc' : (acc ++ [prod]).Pairwise
            (fun a b => toLowerStr a.name ≠ toLowerStr b.name) := by
          rw [List.pairwise_append]
          refine ⟨hacc, List.pairwise_singleton _ _, ?_⟩
          intro a ha b hb
          rcases List.mem_singleton.mp hb with rfl
          intro heq
          exact (List.any_eq_false.mp hany') a ha (beq_iff_eq.mpr heq)
        split
        · exact hacc'
        · exact ih _ hacc'

theorem extract_page_go_pos {soup : Soup} {site_url : String} {limit : Nat} :
    ∀ (sels : List String) (acc : List Product),
      (∀ p ∈ acc, 0 < p.price) →
      ∀ p ∈ extract_from_page_go soup site_url limit sels acc, 0 < p.price := by
  intro sels
  induction sels with
  | nil =>
    intro acc hacc p hp
    simp only [extract_from_page_go] at hp
    split at hp
    · simp only [extract_by_prices] at hp
      exact (extract_by_prices_go_mem _ _ (by simp) p hp).1
    · exact hacc p hp
  | cons sel rest ih =>
    intro acc hacc p hp
    simp only [extract_from_page_go] at hp
    split at hp
    · have hacc' : ∀ q ∈ acc ++ ((soup.select sel).take limit).filterMap
          (fun e => extract_product_from_element e site_url), 0 < q.price := by
        intro q hq
        rcases List.mem_append.mp hq with hq | hq
        · exact hacc q hq
        · obtain ⟨e, _, he⟩ := List.mem_filterMap.mp hq
          exact extract_element_price_pos he
      split at hp
      · exact hacc' p hp
      · exact ih _ hacc' p hp
    · exact ih acc hacc p hp

theorem extract_page_pos {soup : Soup} {site_url : String} {limit : Nat} :
    ∀ p ∈ extract_products_from_page soup site_url limit, 0 < p.price := by
  intro p hp
  simp only [extract_products_from_page] at hp
  exact extract_page_go_pos _ _ (by simp) p hp

theorem try_extract_urls_pos {fetch : String → Option Soup} {site_url : String} {limit : Nat} :
    ∀ (urls : List String) (acc : List Product),
      (∀ p ∈ acc, 0 < p.price) →
      ∀ p ∈ try_extract_urls fetch site_url limit urls acc, 0 < p.price := by
  intro urls
  induction urls with
  | nil =>
    intro acc hacc p hp
    simp only [try_extract_urls] at hp
    exact hacc p hp
  | cons u rest ih =>
    intro acc hacc p hp
    simp only [try_extract_urls] at hp
    cases hf : fetch u with
    | none =>
      simp only [hf] at hp
      exact ih acc hacc p hp
    | some soup =>
      simp only [hf] at hp
      split at hp
      · exact extract_page_pos p hp
      · exact ih _ (fun q hq => extract_page_pos q hq) p hp

theorem strategy_results_pos {fetch : String → Option Soup} {site_url brand_name : String}
    {limit : Nat} :
    ∀ l ∈ strategyResults fetch site_url brand_name limit, ∀ p ∈ l, 0 < p.price := by
  intro l hl
  simp only [strategyResults, List.mem_cons, List.not_mem_nil, or_false] at hl
  rcases hl with rfl | rfl | rfl | rfl
  · intro p hp
    simp only [search_products_on_site] at hp
    exact try_extract_urls_pos _ _ (by simp) p hp
  · intro p hp
    simp only [scrape_shop_page] at hp
    exact try_extract_urls_pos _ _ (by simp) p hp
  · intro p hp
    simp only [scrape_category_page] at hp
    cases hf : fetch (rstripSlash site_url) with
    | none => simp [hf] at hp
    | some soup =>
      simp only [hf] at hp
      exact try_extract_urls_pos _ _ (by simp) p hp
  · intro p hp
    simp only [scrape_collections_page] at hp
    exact try_extract_urls_pos _ _ (by simp) p hp

theorem get_top_go_pos {limit : Nat} :
    ∀ (ls : List (List Product)),
      (∀ l ∈ ls, ∀ p ∈ l, 0 < p.price) →
      ∀ p ∈ get_top_go limit ls, 0 < p.price := by
  intro ls
  induction ls with
  | nil =>
    intro _ p hp
    simp [get_top_go] at hp
  | cons a rest ih =>
    intro h p hp
    simp only [get_top_go] at hp
    split at hp
    · exact h a (List.mem_cons_self _ _) p (List.mem_of_mem_take hp)
    · exact ih (fun l hl => h l (List.mem_cons_of_mem _ hl)) p hp

theorem get_top_go_eq_find {limit : Nat} :
    ∀ (ls : List (List Product)) (ps : List Product),
      ls.find? (fun r => !r.isEmpty && decide (3 ≤ r.length)) = some ps →
      get_top_go limit ls = ps.take limit := by
  intro ls
  induction ls with
  | nil =>
    intro ps h
    simp [List.find?] at h
  | cons a rest ih =>
    intro ps h
    cases hpa : (!a.isEmpty && decide (3 ≤ a.length)) with
    | true =>
      simp only [List.find?, hpa] at h
      cases h
      simp only [get_top_go]
      rw [if_pos hpa]
    | false =>
      simp only [List.find?, hpa] at h
      simp only [get_top_go]
      rw [if_neg (by simp [hpa])]
      exact ih ps h

theorem get_top_go_eq_nil {limit : Nat} :
    ∀ (ls : List (List Product)), (∀ l ∈ ls, l.length < 3) → get_top_go limit ls = [] := by
  intro ls
  induction ls with
  | nil => intro _; rfl
  | cons a rest ih =>
    intro h
    have h3 : ¬((!a.isEmpty && decide (3 ≤ a.length)) = true) := by
      have h4 : ¬(3 ≤ a.length) := Nat.not_le.mpr (h a (List.mem_cons_self _ _))
      simp [h4]
    simp only [get_top_go]
    rw [if_neg h3]
    exact ih (fun l hl => h l (List.mem_cons_of_mem _ hl))

theorem search_products_go_mem {fetch : String → Option Soup} {site_url search_query : String} :
    ∀ (urls : List String) (acc : List Product),
      (∀ p ∈ acc, 0 < p.price ∧ isSubstr (toLowerStr search_query) (toLowerStr p.name) = true) →
      ∀ p ∈ search_products_go fetch site_url search_query urls acc,
        0 < p.price ∧ isSubstr (toLowerStr search_query) (toLowerStr p.name) = true := by
  intro urls
  induction urls with
  | nil =>
    intro acc hacc p hp
    simp only [search_products_go] at hp
    exact hacc p hp
  | cons u rest ih =>
    intro acc hacc p hp
    simp only [search_products_go] at hp
    cases hf : fetch u with
    | none =>
      simp only [hf] at hp
      exact ih acc hacc p hp
    | some soup =>
      simp only [hf] at hp
      have hacc' : ∀ q ∈ acc ++ (extract_products_from_page soup site_url 5).filter
          (fun x => isSubstr (toLowerStr search_query) (toLowerStr x.name)),
          0 < q.price ∧ isSubstr (toLowerStr search_query) (toLowerStr q.name) = true := by
        intro q hq
        rcases List.mem_append.mp hq with hq | hq
        · exact hacc q hq
        · rw [List.mem_filter] at hq
          exact ⟨extract_page_pos q hq.1, hq.2⟩
      split at hp
      · exact ih _ hacc' p hp
      · exact hacc' p hp

theorem search_products_props {fetch : String → Option Soup}
    {site_url search_query brand_name : String} {p : Product}
    (h : p ∈ search_products fetch site_url search_query brand_name) :
    0 < p.price ∧ isSubstr (toLowerStr search_query) (toLowerStr p.name) = true := by
  simp only [search_products] at h
  exact search_products_go_mem _ _ (by simp) p h

/-! Claim theorems for the extraction side. -/

/-- C1 fails on the code: the aggregator keeps every matching record of a
region rather than only the minimum-price one.  With one site returning two
matching records priced 10 and 20, the US entry holds both. -/
theorem C1_counterexample :
    aggregate_product_prices cFetch [("US", ["https://s.com"])] "align" = [("US", cList)]
    ∧ cList.length = 2 := by decide

/-- C1 (amended): the aggregator maps each region to the non-empty list of
all matching records found across that region's sites, every entry having a
positive price and a name containing the target case-insensitively; a region
that yields no matching record is absent, never present with a zero price. -/
theorem C1_aggregate_keeps_all_matches (fetch : String → Option Soup)
    (sites_by_region : List (String × List String)) (product_name : String) :
    ∀ (r : String) (l : List PriceEntry),
      (r, l) ∈ aggregate_product_prices fetch sites_by_region product_name →
      l ≠ []
      ∧ ∀ en ∈ l, 0 < en.price
          ∧ isSubstr (toLowerStr product_name) (toLowerStr en.name) = true := by
  intro r l h
  simp only [aggregate_product_prices] at h
  rw [List.mem_filterMap] at h
  obtain ⟨rs, _, heq⟩ := h
  split at heq
  · cases heq
  · rename_i hne
    cases heq
    constructor
    · intro h0
      exact hne (List.isEmpty_iff.mpr h0)
    · intro en hen
      rw [List.mem_flatMap] at hen
      obtain ⟨site_url, _, hen⟩ := hen
      rw [List.mem_filterMap] at hen
      obtain ⟨product, hprod, hif⟩ := hen
      have hprops := search_products_props hprod
      split at hif
      · rename_i hpos
        cases hif
        exact ⟨hpos, hprops.2⟩
      · cases hif

/-- C1 witness at concrete inputs: the aggregated US list is non-empty and
its first entry has a positive price and a matching name. -/
theorem C1_witness :
    cList ≠ []
    ∧ (0 < cE1.price ∧ isSubstr (toLowerStr "align") (toLowerStr cE1.name) = true) :=
  ⟨(C1_aggregate_keeps_all_matches cFetch [("US", ["https://s.com"])] "align"
      "US" cList (by decide)).1,
   (C1_aggregate_keeps_all_matches cFetch [("US", ["https://s.com"])] "align"
      "US" cList (by decide)).2 cE1 (by decide)⟩

/-- C5: the extractor's strategies are, in order, the on-site search, the
shop page, the category pages and the collections pages; get_top_products
returns the first strategy result with at least three records truncated to
the limit, and the empty list when no strategy reaches three. -/
theorem C5_first_strategy_with_three (fetch : String → Option Soup)
    (site_url brand_name : String) (limit : Nat) :
    strategyResults fetch site_url brand_name limit =
      [search_products_on_site fetch site_url "all" limit,
       scrape_shop_page fetch site_url limit,
       scrape_category_page fetch site_url limit,
       scrape_collections_page fetch site_url limit]
    ∧ (∀ ps, (strategyResults fetch site_url brand_name limit).find?
          (fun r => !r.isEmpty && decide (3 ≤ r.length)) = some ps →
        get_top_products fetch site_url brand_name limit = ps.take limit)
    ∧ ((∀ ps ∈ strategyResults fetch site_url brand_name limit, ps.length < 3) →
        get_top_products fetch site_url brand_name limit = []) := by
  refine ⟨rfl, ?_, ?_⟩
  · intro ps h
    simp only [get_top_products]
    exact get_top_go_eq_find _ ps h
  · intro h
    simp only [get_top_products]
    exact get_top_go_eq_nil _ h

/-- C5 witness at concrete inputs: the first strategy yields three records
and get_top_products returns exactly them. -/
theorem C5_witness :
    get_top_products dFetch "https://d.com" "brand" 10 = dProducts.take 10 :=
  (C5_first_strategy_with_three dFetch "https://d.com" "brand" 10).2.1 dProducts (by decide)

/-- C6: every record of the price-pattern fallback has a positive price and a
name longer than five characters, no two records share a case-insensitively
equal name, and running the fallback over two identical product cards yields
exactly one record. -/
theorem C6_fallback_accept_and_dedup (site_url : String) (limit : Nat) (soup : Soup) :
    (∀ p ∈ extract_by_prices soup site_url limit, 0 < p.price ∧ 5 < p.name.length)
    ∧ (extract_by_prices soup site_url limit).Pairwise
        (fun a b => toLowerStr a.name ≠ toLowerStr b.name)
    ∧ (∀ (e : Element) (p : Product), byPriceCandidate e site_url = some p → 2 ≤ limit →
        (extract_by_prices ⟨fun _ => [], [e, e], []⟩ site_url limit).length = 1) := by
  refine ⟨?_, ?_, ?_⟩
  · intro p hp
    simp only [extract_by_prices] at hp
    exact extract_by_prices_go_mem _ _ (by simp) p hp
  · simp only [extract_by_prices]
    exact extract_by_prices_go_pairwise _ _ List.Pairwise.nil
  · intro e p hc hl
    have hn1 : ¬(limit ≤ 1) := by omega
    simp [extract_by_prices, extract_by_prices_go, hc, hn1]

/-- C6 witness at concrete inputs: an accepted record satisfies the
acceptance bounds and the duplicated card collapses to one record. -/
theorem C6_witness :
    (0 < cP1.price ∧ 5 < cP1.name.length)
    ∧ (extract_by_prices ⟨fun _ => [], [ce1, ce1], []⟩ "https://s.com" 7).length = 1 :=
  ⟨(C6_fallback_accept_and_dedup "https://s.com" 7 cSoup).1 cP1 (by decide),
   (C6_fallback_accept_and_dedup "https://s.com" 7 cSoup).2.2 ce1 cP1 (by decide) (by decide)⟩

/-- C10: every product returned by get_top_products or search_products has a
positive price, and an element whose price is missing, unparsable or parses
to zero yields no record in the structured path (extract_product_from_element)
or the fallback path (byPriceCandidate). -/
theorem C10_returned_prices_positive (fetch : String → Option Soup)
    (site_url brand_name search_query : String) (limit : Nat) :
    (∀ p ∈ get_top_products fetch site_url brand_name limit, 0 < p.price)
    ∧ (∀ p ∈ search_products fetch site_url search_query brand_name, 0 < p.price)
    ∧ (∀ (e : Element) (p : Product),
        extract_product_from_element e site_url = some p → 0 < p.price)
    ∧ (∀ (e : Element) (p : Product),
        byPriceCandidate e site_url = some p → 0 < p.price) := by
  refine ⟨?_, ?_, ?_, ?_⟩
  · intro p hp
    simp only [get_top_products] at hp
    exact get_top_go_pos _ (fun l hl => strategy_results_pos l hl) p hp
  · intro p hp
    exact (search_products_props hp).1
  · intro e p h
    exact extract_element_price_pos h
  · intro e p h
    exact (byPriceCandidate_props h).1

/-- C10 witness at a concrete input: a concrete record returned by
search_products has a positive price. -/
theorem C10_witness : 0 < cP1.price :=
  (C10_returned_prices_positive cFetch "https://s.com" "US" "align" 10).2.1 cP1 (by decide)

end BrandScraper
